import Mathlib

/-!
Verification of the atmos configuration-resolution pipeline
(src/internal/config/config.go, src/pkg/globals/globals.go).

The pipeline is embedded shallowly:
* the viper key/value store, restricted to the three configurable keys the
  program ever reads, is the structure `Store`;
* a candidate configuration file is a `FileState`: it is absent, fails to
  open, fails to parse, or parses to a `FileConfig` (the file's values for
  the three keys, each optional; unknown keys are ignored by the decode);
* the environment is a total function `String → String`, with the Go
  convention that an unset variable reads as the empty string;
* path absolutization and glob expansion are external effects, passed in as
  functions inside a `World`.

The model covers the non-Windows branch of `InitConfig` with successful
home-directory and working-directory resolution; those two failure modes are
error propagation from external calls and are outside every claim below.
-/

namespace Atmos

/-- The constant from src/pkg/globals/globals.go used by the discoverer. -/
def DefaultStackConfigFileExtension : String := ".yaml"

/-- The CLI configuration structure (struct `Configuration` in config.go). -/
structure Configuration where
  StackNamePattern : String
  StackDirs : List String
  StackDirsAbsolutePaths : List String
  TerraformDir : String
  TerraformDirAbsolutePath : String
  StackConfigFiles : List String
deriving DecidableEq, Repr

/-- The viper store restricted to the three keys the program reads.  After
`MergeConfigMap(defaultConfig)` every key is set, so the fields are total. -/
structure Store where
  StackDirs : List String
  TerraformDir : String
  StackNamePattern : String
deriving DecidableEq, Repr

/-- The default values merged first into the store (`defaultConfig` in
config.go). -/
def defaultConfig : Store :=
  { StackDirs := ["./stacks/*"]
    TerraformDir := "./components/terraform"
    StackNamePattern := "environment-stage" }

/-- The keys a parsed candidate file contributes: each of the three keys is
present (`some`) or absent (`none`).  Unknown keys never reach the decoded
record and are not modelled. -/
structure FileConfig where
  StackDirs : Option (List String)
  TerraformDir : Option String
  StackNamePattern : Option String
deriving DecidableEq, Repr

/-- Viper `v.MergeConfig(reader)`: every key present in the file overrides the
store's value for that key; absent keys leave the store untouched. -/
def mergeConfig (v : Store) (f : FileConfig) : Store :=
  { StackDirs := f.StackDirs.getD v.StackDirs
    TerraformDir := f.TerraformDir.getD v.TerraformDir
    StackNamePattern := f.StackNamePattern.getD v.StackNamePattern }

/-- The observable state of one candidate configuration file: it does not
exist, it exists but `os.Open` fails, it exists and opens but
`v.MergeConfig` fails to parse it, or it exists and parses to a
`FileConfig`. -/
inductive FileState where
  | absent : FileState
  | openFailure : String → FileState
  | parseFailure : String → FileState
  | content : FileConfig → FileState
deriving DecidableEq, Repr

/-- Holds when processing the file cannot fail: the file is absent or
well-formed. -/
def FileState.ok : FileState → Bool
  | .openFailure _ => false
  | .parseFailure _ => false
  | _ => true

/-- The function `processConfigFile` (config.go, lines 178-206): a missing file is
skipped and the store is returned unchanged; an existing file that fails to
open or parse aborts with that error; otherwise the file's keys are merged
over the store. -/
def processConfigFile (f : FileState) (v : Store) : Except String Store :=
  match f with
  | .absent => .ok v
  | .openFailure e => .error e
  | .parseFailure e => .error e
  | .content fc => .ok (mergeConfig v fc)

/-- Viper `v.Unmarshal(&Config)`: decode the store into the typed record; the
derived fields keep their zero values at this point. -/
def unmarshal (v : Store) : Configuration :=
  { StackNamePattern := v.StackNamePattern
    StackDirs := v.StackDirs
    StackDirsAbsolutePaths := []
    TerraformDir := v.TerraformDir
    TerraformDirAbsolutePath := ""
    StackConfigFiles := [] }

/-- Go `strings.Split(s, ",")` specialised to a single-character separator:
the list of substrings between consecutive separators, in order. -/
def splitCharAux (sep : Char) : List Char → String → List String
  | [], acc => [acc]
  | c :: rest, acc =>
    if c = sep then acc :: splitCharAux sep rest ""
    else splitCharAux sep rest (acc.push c)

/-- Split a string on every occurrence of a separator character. -/
def splitChar (sep : Char) (s : String) : List String :=
  splitCharAux sep s.toList ""

/-- The function `processEnvVars` (config.go, lines 208-226): each of the three
`ATMOS_*` variables overwrites its field only when it reads non-empty;
`ATMOS_STACK_DIRS` is split on commas. -/
def processEnvVars (env : String → String) (c : Configuration) : Configuration :=
  let stackDirs := env "ATMOS_STACK_DIRS"
  let c1 :=
    if 0 < stackDirs.length then
      { c with StackDirs := splitChar ',' stackDirs }
    else c
  let terraformDir := env "ATMOS_TERRAFORM_DIR"
  let c2 :=
    if 0 < terraformDir.length then
      { c1 with TerraformDir := terraformDir }
    else c1
  let stackNamePattern := env "ATMOS_STACK_NAME_PATTERN"
  if 0 < stackNamePattern.length then
    { c2 with StackNamePattern := stackNamePattern }
  else c2

/-- The function `checkConfig` (config.go, lines 228-240). -/
def checkConfig (c : Configuration) : Except String Unit :=
  if c.StackDirs.length < 1 then
    .error "At least one path to stack config must be provided in 'StackDirs' or 'ATMOS_STACK_DIRS' ENV variable"
  else if c.TerraformDir.length < 1 then
    .error "Terraform dir must be provided in 'TerraformDir' or 'ATMOS_TERRAFORM_DIR' ENV variable"
  else if c.StackNamePattern.length < 1 then
    .error "Stack name pattern must be provided in 'StackNamePattern' or 'ATMOS_STACK_NAME_PATTERN' ENV variable"
  else
    .ok ()

/-- Go `filepath.Ext`, scanning a reversed character list: walking from the
end of the path, a path separator before any dot means no extension, and the
first dot found yields the suffix from that dot on (`acc` carries the
characters already passed, in original order). -/
def filepathExtAux : List Char → List Char → String
  | [], _ => ""
  | c :: rest, acc =>
    if c = '/' then ""
    else if c = '.' then String.mk (c :: acc)
    else filepathExtAux rest (c :: acc)

/-- Go `filepath.Ext(p)`: the suffix of `p` starting at the final dot in the
final path element, empty when there is none. -/
def filepathExt (p : String) : String :=
  filepathExtAux p.toList.reverse []

/-- The extension qualification applied to each pattern by
`findAllStackConfigsInPaths` (config.go, lines 247-253): a pattern without a
file extension gets the default `.yaml` appended; any other pattern is kept
as is. -/
def qualifyPattern (p : String) : String :=
  if filepathExt p = "" then p ++ DefaultStackConfigFileExtension else p

/-- The function `findAllStackConfigsInPaths` (config.go, lines 243-268): qualify each
pattern, expand it with the glob oracle, abort on a glob error, and append
non-empty match lists in order. -/
def findAllStackConfigsInPaths (glob : String → Except String (List String)) :
    List String → Except String (List String)
  | [] => .ok []
  | p :: rest =>
    match glob (qualifyPattern p) with
    | .error e => .error e
    | .ok matchList =>
      match findAllStackConfigsInPaths glob rest with
      | .error e => .error e
      | .ok res => .ok (if 0 < matchList.length then matchList ++ res else res)

/-- Modelled from the spec: `json.MarshalIndent(x, "", "  ")` for a list of
strings (the standard-library serializer is not part of the repository).
Escaping is restricted to the backslash and the double quote, which covers
every string this development serializes. -/
def jsonEscapeChar (c : Char) : String :=
  if c = '"' then "\\\""
  else if c = '\\' then "\\\\"
  else String.mk [c]

/-- JSON string literal for `s` under the restricted escaping above. -/
def jsonQuote (s : String) : String :=
  "\"" ++ String.join (s.toList.map jsonEscapeChar) ++ "\""

/-- Modelled from the spec: indented JSON rendering of a list of strings,
matching Go `json.MarshalIndent(l, "", "  ")`. -/
def jsonMarshalIndentStrings (l : List String) : String :=
  match l with
  | [] => "[]"
  | _ => "[\n" ++ String.intercalate ",\n" (l.map (fun s => "  " ++ jsonQuote s)) ++ "\n]"

/-- The full observable state one resolution runs against: the three
candidate files in priority order (system dir, home dir, current dir), the
environment, the path absolutizer (Modelled from the spec:
`u.ConvertPathsToAbsolutePaths` and `filepath.Abs` — src/internal/utils is
not in the repository snapshot — map each path to its absolute form for the
working directory, abstracted as a total function), and the glob oracle
(the external doublestar library: a pattern either yields its ordered match
list or a pattern error). -/
structure World where
  sysFile : FileState
  homeFile : FileState
  curFile : FileState
  env : String → String
  absPath : String → String
  glob : String → Except String (List String)

/-- The value-resolution prefix of `InitConfig` (config.go, lines 64-128):
seed the store with the defaults, merge the three candidate files in
priority order, decode, and apply the environment overrides. -/
def resolvedConfig (w : World) : Except String Configuration :=
  match processConfigFile w.sysFile defaultConfig with
  | .error e => .error e
  | .ok v1 =>
    match processConfigFile w.homeFile v1 with
    | .error e => .error e
    | .ok v2 =>
      match processConfigFile w.curFile v2 with
      | .error e => .error e
      | .ok v3 => .ok (processEnvVars w.env (unmarshal v3))

/-- The tail of `InitConfig` after validation (config.go, lines 136-172):
absolutize the stack dirs and the terraform dir, discover the stack config
files, fail with the serialized glob list when none is found, and otherwise
record the discovered list. -/
def normalizeAndDiscover (w : World) (c : Configuration) : Except String Configuration :=
  match findAllStackConfigsInPaths w.glob (c.StackDirs.map w.absPath) with
  | .error e => .error e
  | .ok stackConfigFiles =>
    if stackConfigFiles.length < 1 then
      .error ("No config files found in any of the provided path globs:\n"
        ++ jsonMarshalIndentStrings (c.StackDirs.map w.absPath) ++ "\n")
    else
      .ok { c with
        StackDirsAbsolutePaths := c.StackDirs.map w.absPath
        TerraformDirAbsolutePath := w.absPath c.TerraformDir
        StackConfigFiles := stackConfigFiles }

/-- The function `InitConfig` (config.go, lines 53-173): value resolution, then
validation, then normalization and discovery. -/
def InitConfig (w : World) : Except String Configuration :=
  match resolvedConfig w with
  | .error e => .error e
  | .ok c =>
    match checkConfig c with
    | .error e => .error e
    | .ok _ => normalizeAndDiscover w c

/-- Modelled from the spec: wildcard matching within one path segment of the
external doublestar library, with `*` matching any run of characters and `?`
matching one character.  Character classes and alternation do not occur in
any pattern of this development. -/
def segMatch : List Char → List Char → Bool
  | [], cs => cs.isEmpty
  | p :: ps, cs =>
    if p = '*' then cs.tails.any (fun suffix => segMatch ps suffix)
    else
      match cs with
      | [] => false
      | c :: rest => (if p = '?' then true else p = c) && segMatch ps rest

/-- Modelled from the spec: doublestar matching of a slash-split pattern
against a slash-split path, with a `**` segment matching any number of
path segments. -/
def pathMatch : List String → List String → Bool
  | [], ns => ns.isEmpty
  | p :: ps, ns =>
    if p = "**" then ns.tails.any (fun suffix => pathMatch ps suffix)
    else
      match ns with
      | [] => false
      | n :: rest => segMatch p.toList n.toList && pathMatch ps rest

/-- Modelled from the spec: does a doublestar pattern match a path. -/
def doublestarMatch (pat p : String) : Bool :=
  pathMatch (splitChar '/' pat) (splitChar '/' p)

/-- Modelled from the spec: `doublestar.Glob` over a filesystem given as the
ordered list of its file paths — the files matching the pattern, in
filesystem order. -/
def doublestarGlob (fs : List String) (pat : String) : List String :=
  fs.filter (fun f => doublestarMatch pat f)

/-- The value a candidate file contributes for the `StackDirs` key: the
file must exist, parse, and carry the key. -/
def fileStackDirs : FileState → Option (List String)
  | .content fc => fc.StackDirs
  | _ => none

/-- The value a candidate file contributes for the `TerraformDir` key. -/
def fileTerraformDir : FileState → Option String
  | .content fc => fc.TerraformDir
  | _ => none

/-- The value a candidate file contributes for the `StackNamePattern` key. -/
def fileStackNamePattern : FileState → Option String
  | .content fc => fc.StackNamePattern
  | _ => none

/-- The value the environment contributes for `StackDirs`: the comma-split
of `ATMOS_STACK_DIRS` when that variable reads non-empty. -/
def envStackDirs (env : String → String) : Option (List String) :=
  if 0 < (env "ATMOS_STACK_DIRS").length then
    some (splitChar ',' (env "ATMOS_STACK_DIRS"))
  else none

/-- The value the environment contributes for `TerraformDir`. -/
def envTerraformDir (env : String → String) : Option String :=
  if 0 < (env "ATMOS_TERRAFORM_DIR").length then
    some (env "ATMOS_TERRAFORM_DIR")
  else none

/-- The value the environment contributes for `StackNamePattern`. -/
def envStackNamePattern (env : String → String) : Option String :=
  if 0 < (env "ATMOS_STACK_NAME_PATTERN").length then
    some (env "ATMOS_STACK_NAME_PATTERN")
  else none

/-- The `StackDirs` sources in ascending priority order, each `some` when
that source sets the key: built-in default, system-dir file, home-dir file,
current-dir file, environment variable. -/
def stackDirsSources (w : World) : List (Option (List String)) :=
  [some defaultConfig.StackDirs, fileStackDirs w.sysFile,
   fileStackDirs w.homeFile, fileStackDirs w.curFile, envStackDirs w.env]

/-- The `TerraformDir` sources in ascending priority order. -/
def terraformDirSources (w : World) : List (Option String) :=
  [some defaultConfig.TerraformDir, fileTerraformDir w.sysFile,
   fileTerraformDir w.homeFile, fileTerraformDir w.curFile, envTerraformDir w.env]

/-- The `StackNamePattern` sources in ascending priority order. -/
def stackNamePatternSources (w : World) : List (Option String) :=
  [some defaultConfig.StackNamePattern, fileStackNamePattern w.sysFile,
   fileStackNamePattern w.homeFile, fileStackNamePattern w.curFile,
   envStackNamePattern w.env]

/-- The value of the highest-priority source that sets a key: the last set
entry of the ascending-priority source list. -/
def highestSetSource {α : Type} (sources : List (Option α)) : Option α :=
  (sources.filterMap id).getLast?

/-- The keys an error-free candidate file contributes to the merge: a
parsed file contributes its keys, an absent file contributes nothing. -/
def fileConfigOf : FileState → FileConfig
  | .content fc => fc
  | _ => { StackDirs := none, TerraformDir := none, StackNamePattern := none }

/-- An environment with a single variable set. -/
def envOnly (name value : String) : String → String :=
  fun q => if q = name then value else ""

/-- A world builder with identity absolutization, used by concrete
instantiations. -/
def mkWorld (sys home cur : FileState) (env : String → String)
    (glob : String → Except String (List String)) : World :=
  { sysFile := sys, homeFile := home, curFile := cur,
    env := env, absPath := fun p => p, glob := glob }

/-- A one-file fixture filesystem for discovery instantiations. -/
def fixtureGlob : String → Except String (List String) :=
  fun p => .ok (doublestarGlob ["./fixtures/stacks/x.yaml"] p)

/-- The configuration decoded from the untouched default store. -/
def cDefault : Configuration := unmarshal defaultConfig

/-- A world with no configuration files, an empty environment, and a glob
oracle that finds nothing. -/
def wEmpty : World :=
  mkWorld .absent .absent .absent (fun _ => "") (fun _ => .ok [])

/-- A world exercising all layer kinds: the system file sets `StackDirs`,
the current-dir file sets `TerraformDir`, the environment sets
`StackNamePattern`. -/
def wLayered : World :=
  mkWorld (.content ⟨some ["sysdir"], none, none⟩) .absent
    (.content ⟨none, some "curtf", none⟩)
    (envOnly "ATMOS_STACK_NAME_PATTERN" "envpat") (fun _ => .ok ["f"])

/-- A world where a file sets `StackDirs` and `ATMOS_STACK_DIRS` overrides
it. -/
def wEnvDirs : World :=
  mkWorld .absent (.content ⟨some ["homedir"], none, none⟩) .absent
    (envOnly "ATMOS_STACK_DIRS" "a,b,c") (fun _ => .ok ["f"])

/-- A world whose system-dir file exists but fails to open. -/
def wOpenFail : World :=
  mkWorld (.openFailure "boom") .absent .absent (fun _ => "") (fun _ => .ok ["f"])

/-- A world whose home-dir file exists but fails to parse. -/
def wHomeFail : World :=
  mkWorld .absent (.parseFailure "badyaml") .absent (fun _ => "") (fun _ => .ok ["f"])

/-- A world whose current-dir file exists but fails to open. -/
def wCurFail : World :=
  mkWorld .absent .absent (.openFailure "denied") (fun _ => "") (fun _ => .ok ["f"])

/-- A world whose glob oracle finds one stack config file. -/
def wFound : World :=
  mkWorld .absent .absent .absent (fun _ => "") (fun _ => .ok ["s1.yaml"])

/-- A world where `ATMOS_STACK_DIRS` is a bare comma. -/
def wCommas : World :=
  mkWorld .absent .absent .absent (envOnly "ATMOS_STACK_DIRS" ",") (fun _ => .ok ["f"])

/-- A world whose current-dir file sets `TerraformDir` to the empty
string. -/
def wNoTf : World :=
  mkWorld .absent .absent (.content ⟨none, some "", none⟩) (fun _ => "")
    (fun _ => .ok ["f"])

/-- The record `wNoTf` resolves to: defaults except an empty
`TerraformDir`. -/
def cNoTf : Configuration :=
  { StackNamePattern := "environment-stage", StackDirs := ["./stacks/*"],
    StackDirsAbsolutePaths := [], TerraformDir := "",
    TerraformDirAbsolutePath := "", StackConfigFiles := [] }

/-- The record `wCommas` resolves to: defaults except
`StackDirs = ["", ""]`. -/
def cCommas : Configuration :=
  { StackNamePattern := "environment-stage", StackDirs := ["", ""],
    StackDirsAbsolutePaths := [], TerraformDir := "./components/terraform",
    TerraformDirAbsolutePath := "", StackConfigFiles := [] }

theorem processConfigFile_of_ok (f : FileState) (v : Store) (h : f.ok = true) :
    processConfigFile f v = .ok (mergeConfig v (fileConfigOf f)) := by
  cases f with
  | absent => rfl
  | openFailure e => simp [FileState.ok] at h
  | parseFailure e => simp [FileState.ok] at h
  | content fc => rfl

theorem fileStackDirs_eq (f : FileState) :
    fileStackDirs f = (fileConfigOf f).StackDirs := by
  cases f <;> rfl

theorem fileTerraformDir_eq (f : FileState) :
    fileTerraformDir f = (fileConfigOf f).TerraformDir := by
  cases f <;> rfl

theorem fileStackNamePattern_eq (f : FileState) :
    fileStackNamePattern f = (fileConfigOf f).StackNamePattern := by
  cases f <;> rfl

theorem processEnvVars_StackDirs (env : String → String) (c : Configuration) :
    (processEnvVars env c).StackDirs = (envStackDirs env).getD c.StackDirs := by
  simp only [processEnvVars, envStackDirs]
  split_ifs <;> rfl

theorem processEnvVars_TerraformDir (env : String → String) (c : Configuration) :
    (processEnvVars env c).TerraformDir = (envTerraformDir env).getD c.TerraformDir := by
  simp only [processEnvVars, envTerraformDir]
  split_ifs <;> rfl

theorem processEnvVars_StackNamePattern (env : String → String) (c : Configuration) :
    (processEnvVars env c).StackNamePattern =
      (envStackNamePattern env).getD c.StackNamePattern := by
  simp only [processEnvVars, envStackNamePattern]
  split_ifs <;> rfl

theorem highestSetSource_cons {α : Type} (d : α) (os : List (Option α)) :
    highestSetSource (some d :: os) = some (os.foldl (fun a o => o.getD a) d) := by
  induction os generalizing d with
  | nil => rfl
  | cons o rest ih =>
    cases o with
    | none =>
      have h : highestSetSource (some d :: none :: rest) =
          highestSetSource (some d :: rest) := by
        simp [highestSetSource, List.filterMap_cons]
      rw [h, ih d]
      rfl
    | some x =>
      have h : highestSetSource (some d :: some x :: rest) =
          highestSetSource (some x :: rest) := by
        simp [highestSetSource, List.filterMap_cons, List.getLast?_cons_cons]
      rw [h, ih x]
      rfl

theorem string_length_pos_iff (s : String) : 0 < s.length ↔ s ≠ "" := by
  have h : s.length = s.data.length := rfl
  rw [h, List.length_pos]
  constructor
  · intro hne he
    exact hne (by rw [he])
  · intro hne hd
    exact hne (String.ext_iff.mpr hd)

theorem normalizeAndDiscover_fields (w : World) (c c' : Configuration)
    (h : normalizeAndDiscover w c = .ok c') :
    c'.StackDirs = c.StackDirs ∧ c'.TerraformDir = c.TerraformDir ∧
      c'.StackNamePattern = c.StackNamePattern := by
  unfold normalizeAndDiscover at h
  cases hf : findAllStackConfigsInPaths w.glob (c.StackDirs.map w.absPath) with
  | error e => rw [hf] at h; simp at h
  | ok files =>
    rw [hf] at h
    by_cases hlen : files.length < 1
    · simp [hlen] at h
    · simp only [hlen, if_false] at h
      cases h
      exact ⟨rfl, rfl, rfl⟩

theorem initConfig_fields (w : World) (c c' : Configuration)
    (hres : resolvedConfig w = .ok c) (h : InitConfig w = .ok c') :
    c'.StackDirs = c.StackDirs ∧ c'.TerraformDir = c.TerraformDir ∧
      c'.StackNamePattern = c.StackNamePattern := by
  unfold InitConfig at h
  rw [hres] at h
  dsimp only at h
  cases hc : checkConfig c with
  | error e => rw [hc] at h; simp at h
  | ok u =>
    rw [hc] at h
    exact normalizeAndDiscover_fields w c c' h

theorem resolvedConfig_of_ok (w : World) (h1 : w.sysFile.ok = true)
    (h2 : w.homeFile.ok = true) (h3 : w.curFile.ok = true) :
    resolvedConfig w = .ok (processEnvVars w.env (unmarshal
      (mergeConfig (mergeConfig (mergeConfig defaultConfig (fileConfigOf w.sysFile))
        (fileConfigOf w.homeFile)) (fileConfigOf w.curFile)))) := by
  unfold resolvedConfig
  rw [processConfigFile_of_ok _ _ h1]
  dsimp only
  rw [processConfigFile_of_ok _ _ h2]
  dsimp only
  rw [processConfigFile_of_ok _ _ h3]

/-- C1: whenever every candidate file is absent or well-formed, the value
resolution succeeds and, for each of the three configurable keys, the
resolved value is the value of the highest-priority source that sets the
key, the sources in ascending priority being the built-in default, the
system-dir file, the home-dir file, the current-dir file, and the
environment variable. -/
theorem c1_priority_resolution (w : World)
    (h1 : w.sysFile.ok = true) (h2 : w.homeFile.ok = true) (h3 : w.curFile.ok = true) :
    ∃ c, resolvedConfig w = .ok c ∧
      some c.StackDirs = highestSetSource (stackDirsSources w) ∧
      some c.TerraformDir = highestSetSource (terraformDirSources w) ∧
      some c.StackNamePattern = highestSetSource (stackNamePatternSources w) := by
  refine ⟨_, resolvedConfig_of_ok w h1 h2 h3, ?_, ?_, ?_⟩
  · rw [processEnvVars_StackDirs, stackDirsSources, highestSetSource_cons]
    simp [List.foldl_cons, List.foldl_nil, mergeConfig, unmarshal, fileStackDirs_eq]
  · rw [processEnvVars_TerraformDir, terraformDirSources, highestSetSource_cons]
    simp [List.foldl_cons, List.foldl_nil, mergeConfig, unmarshal, fileTerraformDir_eq]
  · rw [processEnvVars_StackNamePattern, stackNamePatternSources, highestSetSource_cons]
    simp [List.foldl_cons, List.foldl_nil, mergeConfig, unmarshal,
      fileStackNamePattern_eq]

theorem c1_witness :
    ∃ c, resolvedConfig wLayered = .ok c ∧
      some c.StackDirs = highestSetSource (stackDirsSources wLayered) ∧
      some c.TerraformDir = highestSetSource (terraformDirSources wLayered) ∧
      some c.StackNamePattern = highestSetSource (stackNamePatternSources wLayered) :=
  c1_priority_resolution wLayered rfl rfl rfl

/-- C3: when every candidate file is absent or well-formed and
`ATMOS_STACK_DIRS` reads as a non-empty string `s`, resolution yields
`StackDirs` equal to the comma-split of `s`, whatever the files set for
that key; the full pipeline returns the same value, and the comma-split of
`"a,b,c"` is `["a","b","c"]`. -/
theorem c3_env_stack_dirs_overrides (w : World) (s : String)
    (h1 : w.sysFile.ok = true) (h2 : w.homeFile.ok = true) (h3 : w.curFile.ok = true)
    (hs : w.env "ATMOS_STACK_DIRS" = s) (hlen : 0 < s.length) :
    (∃ c, resolvedConfig w = .ok c ∧ c.StackDirs = splitChar ',' s) ∧
    (∀ c', InitConfig w = .ok c' → c'.StackDirs = splitChar ',' s) ∧
    splitChar ',' "a,b,c" = ["a", "b", "c"] := by
  have hres := resolvedConfig_of_ok w h1 h2 h3
  have hdirs : (processEnvVars w.env (unmarshal
      (mergeConfig (mergeConfig (mergeConfig defaultConfig (fileConfigOf w.sysFile))
        (fileConfigOf w.homeFile)) (fileConfigOf w.curFile)))).StackDirs =
      splitChar ',' s := by
    rw [processEnvVars_StackDirs]
    simp [envStackDirs, hs, hlen]
  refine ⟨⟨_, hres, hdirs⟩, ?_, rfl⟩
  intro c' h
  have hf := initConfig_fields w _ c' hres h
  rw [hf.1, hdirs]

theorem c3_witness :
    (∃ c, resolvedConfig wEnvDirs = .ok c ∧ c.StackDirs = splitChar ',' "a,b,c") ∧
    (∀ c', InitConfig wEnvDirs = .ok c' → c'.StackDirs = splitChar ',' "a,b,c") ∧
    splitChar ',' "a,b,c" = ["a", "b", "c"] :=
  c3_env_stack_dirs_overrides wEnvDirs "a,b,c" rfl rfl rfl rfl (by decide)

/-- C2: if none of the three candidate configuration files exists and none
of the three `ATMOS_*` environment variables reads non-empty, the resolved
configurable fields equal the built-in defaults exactly:
`StackDirs = ["./stacks/*"]`, `TerraformDir = "./components/terraform"`,
`StackNamePattern = "environment-stage"`; any configuration the full
pipeline returns carries the same three values. -/
theorem c2_defaults_when_nothing_configured (w : World)
    (h1 : w.sysFile = .absent) (h2 : w.homeFile = .absent) (h3 : w.curFile = .absent)
    (h4 : w.env "ATMOS_STACK_DIRS" = "") (h5 : w.env "ATMOS_TERRAFORM_DIR" = "")
    (h6 : w.env "ATMOS_STACK_NAME_PATTERN" = "") :
    ∃ c, resolvedConfig w = .ok c ∧ c.StackDirs = ["./stacks/*"] ∧
      c.TerraformDir = "./components/terraform" ∧
      c.StackNamePattern = "environment-stage" ∧
      ∀ c', InitConfig w = .ok c' → c'.StackDirs = ["./stacks/*"] ∧
        c'.TerraformDir = "./components/terraform" ∧
        c'.StackNamePattern = "environment-stage" := by
  have henv : processEnvVars w.env (unmarshal defaultConfig) = unmarshal defaultConfig := by
    unfold processEnvVars
    rw [h4, h5, h6]
    rfl
  have hres : resolvedConfig w = .ok (unmarshal defaultConfig) := by
    unfold resolvedConfig
    rw [h1, h2, h3]
    dsimp only [processConfigFile]
    rw [henv]
  refine ⟨unmarshal defaultConfig, hres, rfl, rfl, rfl, ?_⟩
  intro c' h
  have hf := initConfig_fields w (unmarshal defaultConfig) c' hres h
  simpa [unmarshal, defaultConfig] using hf

theorem c2_witness :
    ∃ c, resolvedConfig wEmpty = .ok c ∧ c.StackDirs = ["./stacks/*"] ∧
      c.TerraformDir = "./components/terraform" ∧
      c.StackNamePattern = "environment-stage" ∧
      ∀ c', InitConfig wEmpty = .ok c' → c'.StackDirs = ["./stacks/*"] ∧
        c'.TerraformDir = "./components/terraform" ∧
        c'.StackNamePattern = "environment-stage" :=
  c2_defaults_when_nothing_configured wEmpty rfl rfl rfl rfl rfl rfl

/-- C4: processing one candidate configuration file is fatal exactly when
the file exists but cannot be opened or parsed: an absent candidate returns
success with the store unchanged, an open or parse failure returns that
error, and such a failure at any of the three candidate positions makes the
whole resolution return that error. -/
theorem c4_absent_skipped_malformed_fatal :
    (∀ v, processConfigFile .absent v = .ok v) ∧
    (∀ e v, processConfigFile (.openFailure e) v = .error e) ∧
    (∀ e v, processConfigFile (.parseFailure e) v = .error e) ∧
    (∀ f v e, processConfigFile f v = .error e →
      f = .openFailure e ∨ f = .parseFailure e) ∧
    (∀ w e, processConfigFile w.sysFile defaultConfig = .error e →
      InitConfig w = .error e) ∧
    (∀ w v e, processConfigFile w.sysFile defaultConfig = .ok v →
      processConfigFile w.homeFile v = .error e → InitConfig w = .error e) ∧
    (∀ w v v' e, processConfigFile w.sysFile defaultConfig = .ok v →
      processConfigFile w.homeFile v = .ok v' →
      processConfigFile w.curFile v' = .error e → InitConfig w = .error e) := by
  refine ⟨fun v => rfl, fun e v => rfl, fun e v => rfl, ?_, ?_, ?_, ?_⟩
  · intro f v e h
    cases f with
    | absent => simp [processConfigFile] at h
    | openFailure e' => simp [processConfigFile] at h; left; rw [h]
    | parseFailure e' => simp [processConfigFile] at h; right; rw [h]
    | content fc => simp [processConfigFile] at h
  · intro w e h
    have hres : resolvedConfig w = .error e := by
      unfold resolvedConfig; rw [h]
    unfold InitConfig; rw [hres]
  · intro w v e h1 h2
    have hres : resolvedConfig w = .error e := by
      unfold resolvedConfig; rw [h1]; dsimp only; rw [h2]
    unfold InitConfig; rw [hres]
  · intro w v v' e h1 h2 h3
    have hres : resolvedConfig w = .error e := by
      unfold resolvedConfig; rw [h1]; dsimp only; rw [h2]; dsimp only; rw [h3]
    unfold InitConfig; rw [hres]

theorem c4_witness :
    (FileState.parseFailure "bad" = .openFailure "bad" ∨
      FileState.parseFailure "bad" = .parseFailure "bad") ∧
    InitConfig wOpenFail = .error "boom" ∧
    InitConfig wHomeFail = .error "badyaml" ∧
    InitConfig wCurFail = .error "denied" :=
  ⟨c4_absent_skipped_malformed_fatal.2.2.2.1 (.parseFailure "bad") defaultConfig "bad" rfl,
   c4_absent_skipped_malformed_fatal.2.2.2.2.1 wOpenFail "boom" rfl,
   c4_absent_skipped_malformed_fatal.2.2.2.2.2.1 wHomeFail defaultConfig "badyaml" rfl rfl,
   c4_absent_skipped_malformed_fatal.2.2.2.2.2.2 wCurFail defaultConfig defaultConfig
     "denied" rfl rfl rfl⟩

/-- C9: for each of the three environment variables, an empty value is
treated exactly like an unset variable — the field from the file/default
layers survives — while a non-empty value overwrites the field
(`ATMOS_STACK_DIRS` comma-split, the other two verbatim). -/
theorem c9_empty_env_means_unset (env : String → String) (c : Configuration) :
    (env "ATMOS_STACK_DIRS" = "" →
      (processEnvVars env c).StackDirs = c.StackDirs) ∧
    (env "ATMOS_TERRAFORM_DIR" = "" →
      (processEnvVars env c).TerraformDir = c.TerraformDir) ∧
    (env "ATMOS_STACK_NAME_PATTERN" = "" →
      (processEnvVars env c).StackNamePattern = c.StackNamePattern) ∧
    (env "ATMOS_STACK_DIRS" ≠ "" →
      (processEnvVars env c).StackDirs = splitChar ',' (env "ATMOS_STACK_DIRS")) ∧
    (env "ATMOS_TERRAFORM_DIR" ≠ "" →
      (processEnvVars env c).TerraformDir = env "ATMOS_TERRAFORM_DIR") ∧
    (env "ATMOS_STACK_NAME_PATTERN" ≠ "" →
      (processEnvVars env c).StackNamePattern = env "ATMOS_STACK_NAME_PATTERN") := by
  refine ⟨?_, ?_, ?_, ?_, ?_, ?_⟩
  · intro h
    rw [processEnvVars_StackDirs]
    simp [envStackDirs, h]
  · intro h
    rw [processEnvVars_TerraformDir]
    simp [envTerraformDir, h]
  · intro h
    rw [processEnvVars_StackNamePattern]
    simp [envStackNamePattern, h]
  · intro h
    have hp := (string_length_pos_iff _).mpr h
    rw [processEnvVars_StackDirs]
    simp [envStackDirs, hp]
  · intro h
    have hp := (string_length_pos_iff _).mpr h
    rw [processEnvVars_TerraformDir]
    simp [envTerraformDir, hp]
  · intro h
    have hp := (string_length_pos_iff _).mpr h
    rw [processEnvVars_StackNamePattern]
    simp [envStackNamePattern, hp]

theorem string_length_eq_zero_iff (s : String) : s.length = 0 ↔ s = "" := by
  constructor
  · intro h
    by_contra hne
    have hp := (string_length_pos_iff s).mpr hne
    omega
  · intro h
    rw [h]
    rfl

/-- C5: after environment overrides, validation fails if and only if
`StackDirs` is empty, `TerraformDir` is empty, or `StackNamePattern` is
empty; the error message names the missing field together with its file key
and environment variable; on a successful value resolution a validation
error becomes the pipeline's error before normalization runs, and a
validation success hands the resolved record to normalization and
discovery. -/
theorem c5_validation (c : Configuration) (w : World) :
    ((∃ e, checkConfig c = .error e) ↔
      (c.StackDirs = [] ∨ c.TerraformDir = "" ∨ c.StackNamePattern = "")) ∧
    (∀ e, checkConfig c = .error e →
      (c.StackDirs = [] ∧
        e = "At least one path to stack config must be provided in 'StackDirs' or 'ATMOS_STACK_DIRS' ENV variable") ∨
      (c.TerraformDir = "" ∧
        e = "Terraform dir must be provided in 'TerraformDir' or 'ATMOS_TERRAFORM_DIR' ENV variable") ∨
      (c.StackNamePattern = "" ∧
        e = "Stack name pattern must be provided in 'StackNamePattern' or 'ATMOS_STACK_NAME_PATTERN' ENV variable")) ∧
    (∀ c₀ e, resolvedConfig w = .ok c₀ → checkConfig c₀ = .error e →
      InitConfig w = .error e) ∧
    (∀ c₀, resolvedConfig w = .ok c₀ → checkConfig c₀ = .ok () →
      InitConfig w = normalizeAndDiscover w c₀) := by
  have hsd : c.StackDirs.length < 1 ↔ c.StackDirs = [] := by
    rw [Nat.lt_one_iff, List.length_eq_zero]
  have htd : c.TerraformDir.length < 1 ↔ c.TerraformDir = "" := by
    rw [Nat.lt_one_iff, string_length_eq_zero_iff]
  have hsp : c.StackNamePattern.length < 1 ↔ c.StackNamePattern = "" := by
    rw [Nat.lt_one_iff, string_length_eq_zero_iff]
  refine ⟨?_, ?_, ?_, ?_⟩
  · unfold checkConfig
    split_ifs with ha hb hc
    · simp [hsd.mp ha]
    · simp [htd.mp hb]
    · simp [hsp.mp hc]
    · constructor
      · intro ⟨e, he⟩
        simp at he
      · intro h
        rcases h with h | h | h
        · exact absurd (hsd.mpr h) ha
        · exact absurd (htd.mpr h) hb
        · exact absurd (hsp.mpr h) hc
  · intro e he
    unfold checkConfig at he
    split_ifs at he with ha hb hc
    · left
      exact ⟨hsd.mp ha, by injection he with h; rw [h]⟩
    · right; left
      exact ⟨htd.mp hb, by injection he with h; rw [h]⟩
    · right; right
      exact ⟨hsp.mp hc, by injection he with h; rw [h]⟩
  · intro c₀ e hr hc
    unfold InitConfig
    rw [hr]
    dsimp only
    rw [hc]
  · intro c₀ hr hc
    unfold InitConfig
    rw [hr]
    dsimp only
    rw [hc]

theorem c5_witness :
    InitConfig wNoTf =
      .error "Terraform dir must be provided in 'TerraformDir' or 'ATMOS_TERRAFORM_DIR' ENV variable" ∧
    InitConfig wEmpty = normalizeAndDiscover wEmpty cDefault :=
  ⟨(c5_validation cNoTf wNoTf).2.2.1 cNoTf _ rfl rfl,
   (c5_validation cDefault wEmpty).2.2.2 cDefault rfl rfl⟩

/-- C7: when the pipeline reaches discovery, an empty concatenated match
list makes resolution fail with an error embedding the indented-JSON
serialization of the absolute path globs (no configuration record is
produced, so `StackConfigFiles` is never assigned), while a non-empty list
makes resolution succeed with `StackConfigFiles` equal to that list. -/
theorem c7_empty_discovery_fails (w : World) (c : Configuration) (files : List String)
    (hres : resolvedConfig w = .ok c) (hchk : checkConfig c = .ok ())
    (hfind : findAllStackConfigsInPaths w.glob (c.StackDirs.map w.absPath) = .ok files) :
    (files = [] → InitConfig w = .error
      ("No config files found in any of the provided path globs:\n" ++
        jsonMarshalIndentStrings (c.StackDirs.map w.absPath) ++ "\n")) ∧
    (files ≠ [] → ∃ c', InitConfig w = .ok c' ∧ c'.StackConfigFiles = files) := by
  have hinit : InitConfig w = normalizeAndDiscover w c := by
    unfold InitConfig
    rw [hres]
    dsimp only
    rw [hchk]
  constructor
  · intro h
    subst h
    rw [hinit]
    unfold normalizeAndDiscover
    rw [hfind]
    rfl
  · intro h
    rw [hinit]
    unfold normalizeAndDiscover
    rw [hfind]
    have hlen : ¬ files.length < 1 := by
      have := List.length_pos.mpr h
      omega
    simp only [hlen, if_false]
    exact ⟨_, rfl, rfl⟩

theorem c7_witness :
    InitConfig wEmpty = .error
      ("No config files found in any of the provided path globs:\n" ++
        jsonMarshalIndentStrings (cDefault.StackDirs.map wEmpty.absPath) ++ "\n") ∧
    (∃ c', InitConfig wFound = .ok c' ∧ c'.StackConfigFiles = ["s1.yaml"]) :=
  ⟨(c7_empty_discovery_fails wEmpty cDefault [] rfl rfl rfl).1 rfl,
   (c7_empty_discovery_fails wFound cDefault ["s1.yaml"] rfl rfl rfl).2 (by decide)⟩

theorem findAll_flatten (glob : String → Except String (List String))
    (m : String → List String) :
    ∀ ps : List String, (∀ p ∈ ps, glob (qualifyPattern p) = .ok (m p)) →
      findAllStackConfigsInPaths glob ps = .ok (ps.map m).flatten := by
  intro ps
  induction ps with
  | nil => intro h; rfl
  | cons p rest ih =>
    intro h
    have hp := h p (List.mem_cons_self p rest)
    have hr := ih (fun q hq => h q (List.mem_cons_of_mem p hq))
    simp only [findAllStackConfigsInPaths]
    rw [hp, hr]
    by_cases hl : 0 < (m p).length
    · simp [hl]
    · have hmp : m p = [] := by
        rw [← List.length_eq_zero]
        omega
      simp [hl, hmp]

/-- C8: when every qualified pattern expands without error, discovery
returns the concatenation, in pattern iteration order, of each pattern's
match list in that pattern's own order, with no de-duplication: each file
occurs in the result exactly the sum over the patterns of its occurrences
in that pattern's match list. -/
theorem c8_concatenation_no_dedup (glob : String → Except String (List String))
    (m : String → List String) (ps : List String)
    (h : ∀ p ∈ ps, glob (qualifyPattern p) = .ok (m p)) :
    findAllStackConfigsInPaths glob ps = .ok (ps.map m).flatten ∧
    ∀ x, List.count x (ps.map m).flatten =
      (ps.map (fun p => List.count x (m p))).sum := by
  refine ⟨findAll_flatten glob m ps h, ?_⟩
  intro x
  rw [List.count_flatten, List.map_map]
  rfl

theorem c8_witness :
    findAllStackConfigsInPaths (fun _ => Except.ok ["f.yaml"]) ["a.yaml", "b.yaml"] =
      .ok ["f.yaml", "f.yaml"] ∧
    List.count "f.yaml" ["f.yaml", "f.yaml"] = 2 :=
  ⟨(c8_concatenation_no_dedup (fun _ => Except.ok ["f.yaml"]) (fun _ => ["f.yaml"])
      ["a.yaml", "b.yaml"] (fun p hp => rfl)).1,
   by decide⟩

theorem c9_witness :
    (processEnvVars (envOnly "ATMOS_TERRAFORM_DIR" "tfd") cDefault).StackDirs =
      cDefault.StackDirs ∧
    (processEnvVars (envOnly "ATMOS_TERRAFORM_DIR" "tfd") cDefault).TerraformDir =
      envOnly "ATMOS_TERRAFORM_DIR" "tfd" "ATMOS_TERRAFORM_DIR" :=
  ⟨(c9_empty_env_means_unset (envOnly "ATMOS_TERRAFORM_DIR" "tfd") cDefault).1 rfl,
   (c9_empty_env_means_unset (envOnly "ATMOS_TERRAFORM_DIR" "tfd") cDefault).2.2.2.2.1
     (by decide)⟩

theorem splitCharAux_all_sep :
    ∀ (l : List Char) (acc : String), (∀ ch ∈ l, ch = ',') →
      splitCharAux ',' l acc = acc :: List.replicate l.length "" := by
  intro l
  induction l with
  | nil =>
    intro acc h
    rfl
  | cons ch rest ih =>
    intro acc h
    have hc : ch = ',' := h ch (List.mem_cons_self ch rest)
    have hr := ih "" (fun x hx => h x (List.mem_cons_of_mem ch hx))
    simp [splitCharAux, hc, hr, List.replicate_succ]

/-- C10: a non-empty `ATMOS_STACK_DIRS` consisting only of commas makes
`StackDirs` a non-empty sequence of empty strings (a string of n commas
yields n+1 empty entries); validation accepts such a record whenever the
other two fields are non-empty, since it only checks that the sequence is
non-empty, and after a successful validation the pipeline proceeds to
normalization and glob expansion. -/
theorem c10_comma_only_stack_dirs (w : World) (c : Configuration) (s : String)
    (hs : w.env "ATMOS_STACK_DIRS" = s) (hne : s ≠ "")
    (hcomma : ∀ ch ∈ s.toList, ch = ',') :
    (processEnvVars w.env c).StackDirs = List.replicate (s.length + 1) "" ∧
    (processEnvVars w.env c).StackDirs ≠ [] ∧
    (∀ x ∈ (processEnvVars w.env c).StackDirs, x = "") ∧
    ((processEnvVars w.env c).TerraformDir ≠ "" →
      (processEnvVars w.env c).StackNamePattern ≠ "" →
      checkConfig (processEnvVars w.env c) = .ok ()) ∧
    (∀ c₀, resolvedConfig w = .ok c₀ → checkConfig c₀ = .ok () →
      InitConfig w = normalizeAndDiscover w c₀) := by
  have hsplit : splitChar ',' s = List.replicate (s.length + 1) "" := by
    unfold splitChar
    rw [splitCharAux_all_sep s.toList "" hcomma]
    rfl
  have hdirs : (processEnvVars w.env c).StackDirs = splitChar ',' s := by
    rw [processEnvVars_StackDirs]
    simp [envStackDirs, hs, (string_length_pos_iff s).mpr hne]
  refine ⟨by rw [hdirs, hsplit], ?_, ?_, ?_, ?_⟩
  · rw [hdirs, hsplit, List.replicate_succ]
    exact List.cons_ne_nil _ _
  · intro x hx
    rw [hdirs, hsplit] at hx
    exact List.eq_of_mem_replicate hx
  · intro h1 h2
    have hl1 : ¬ (processEnvVars w.env c).StackDirs.length < 1 := by
      rw [hdirs, hsplit, List.length_replicate]
      omega
    have hl2 : ¬ (processEnvVars w.env c).TerraformDir.length < 1 := by
      have := (string_length_pos_iff _).mpr h1
      omega
    have hl3 : ¬ (processEnvVars w.env c).StackNamePattern.length < 1 := by
      have := (string_length_pos_iff _).mpr h2
      omega
    simp [checkConfig, hl1, hl2, hl3]
  · intro c₀ hr hc
    unfold InitConfig
    rw [hr]
    dsimp only
    rw [hc]

theorem c10_witness :
    (processEnvVars wCommas.env cDefault).StackDirs = ["", ""] ∧
    checkConfig (processEnvVars wCommas.env cDefault) = .ok () ∧
    InitConfig wCommas = normalizeAndDiscover wCommas cCommas :=
  ⟨(c10_comma_only_stack_dirs wCommas cDefault "," rfl (by decide) (by decide)).1,
   (c10_comma_only_stack_dirs wCommas cDefault "," rfl (by decide) (by decide)).2.2.2.1
     (by decide) (by decide),
   (c10_comma_only_stack_dirs wCommas cDefault "," rfl (by decide) (by decide)).2.2.2.2
     cCommas rfl rfl⟩

/-- C6 as stated is false at the fixture it gives: with
`StackDirs = ["./fixtures/stacks"]` and exactly the file
`./fixtures/stacks/x.yaml` present, the pattern is qualified to
`./fixtures/stacks.yaml`, which matches nothing, so discovery yields the
empty list rather than the claimed single match. -/
theorem c6_counterexample :
    findAllStackConfigsInPaths fixtureGlob ["./fixtures/stacks"] = .ok [] ∧
    findAllStackConfigsInPaths fixtureGlob ["./fixtures/stacks"] ≠
      .ok ["./fixtures/stacks/x.yaml"] := by
  have h0 : findAllStackConfigsInPaths fixtureGlob ["./fixtures/stacks"] =
      Except.ok ([] : List String) := rfl
  refine ⟨h0, ?_⟩
  rw [h0]
  intro h
  injection h with h'
  exact List.noConfusion h'

/-- C6 (amended): a pattern without a file extension is qualified by
appending `.yaml` before glob matching and a pattern that carries one is
matched unmodified; in particular, for `StackDirs = ["./fixtures/stacks/*"]`
with exactly the file `./fixtures/stacks/x.yaml` present, discovery yields
exactly the one match for that file. -/
theorem c6_extension_qualification (p : String) :
    (filepathExt p = "" → qualifyPattern p = p ++ ".yaml") ∧
    (filepathExt p ≠ "" → qualifyPattern p = p) ∧
    findAllStackConfigsInPaths fixtureGlob ["./fixtures/stacks/*"] =
      .ok ["./fixtures/stacks/x.yaml"] := by
  refine ⟨?_, ?_, rfl⟩
  · intro h
    simp [qualifyPattern, h, DefaultStackConfigFileExtension]
  · intro h
    simp [qualifyPattern, h]

theorem c6_witness :
    qualifyPattern "./fixtures/stacks" = "./fixtures/stacks" ++ ".yaml" ∧
    qualifyPattern "./stacks/a.yml" = "./stacks/a.yml" :=
  ⟨(c6_extension_qualification "./fixtures/stacks").1 rfl,
   (c6_extension_qualification "./stacks/a.yml").2.1 (by decide)⟩

end Atmos
